import Mathlib

/-!
Shallow embedding of `detect_labels.py`: an upload-then-annotate pipeline
that provisions an S3 bucket, uploads local images, runs Rekognition
DetectLabels on each uploaded key, aggregates the labels, and writes
CSV / combined-JSON / per-image-JSON outputs.

The remote services (S3, Rekognition) and the local filesystem are modelled
as oracle functions collected in an `Env` record.  Python exceptions are
modelled with `Except PyError`; the driver `main` either exits with a code
and message (`sys.exit`), lets an exception escape uncaught, or finishes
having produced the output artifacts (modelled as data, since writing is
pure serialization of in-memory state).
-/

set_option autoImplicit false

namespace DetectLabels

/-- Python `str.rstrip('/')`: remove all trailing `/` characters. -/
def pyRstripSlash (s : String) : String :=
  String.mk ((s.toList.reverse.dropWhile (fun c => c = '/')).reverse)

/-- Python `os.path.basename`: everything after the last `/` (POSIX). -/
def basename (s : String) : String :=
  String.mk ((s.toList.reverse.takeWhile (fun c => c ≠ '/')).reverse)

/-- Remote key derivation, from line 37 of the source:
`key = f"{prefix.rstrip('/')}/{fname}" if prefix else fname`. -/
def derive_key (pre loc : String) : String :=
  if pre = "" then basename loc
  else pyRstripSlash pre ++ "/" ++ basename loc

/-- Python `key.replace('/', '__')` (the pattern is the single char `/`),
as used by `write_per_image_json`. -/
def replaceSlash (s : String) : String :=
  String.mk (s.toList.foldr
    (fun c acc => if c = '/' then '_' :: '_' :: acc else c :: acc) [])

/-- Filename chosen by `write_per_image_json` for a remote key (line 83-84). -/
def perImageFilename (key : String) : String :=
  replaceSlash key ++ ".json"

/-- A botocore `ClientError`, reduced to the two fields the program reads:
`e.response['Error']['Code']` and the HTTP status code. -/
structure ClientError where
  code : String
  httpStatus : Nat
  deriving DecidableEq, Repr

/-- The Python exceptions that can cross function boundaries in this program. -/
inductive PyError where
  /-- a botocore `ClientError` -/
  | clientError (e : ClientError)
  /-- `NoCredentialsError` -/
  | noCredentials
  /-- `KeyError` from a subscript on a malformed response dict -/
  | keyError (field : String)
  /-- an upload failure raised by `upload_file` / `head_object` -/
  | uploadFailed (msg : String)
  deriving DecidableEq, Repr

/-- A normalized label: `{'name': ..., 'confidence': ...}` (line 56-59).
Confidence is modelled as a rational; the program never computes with it. -/
structure Label where
  name : String
  confidence : Rat
  deriving DecidableEq, Repr

/-- A raw label entry of the Rekognition response.  Either field may be
absent, in which case the subscript in the normalizer raises `KeyError`. -/
structure RawLabel where
  rawName : Option String
  rawConfidence : Option Rat
  deriving DecidableEq, Repr

/-- A Rekognition `detect_labels` response: the `Labels` field may be
absent (`resp.get('Labels', [])` defaults it to the empty list). -/
structure RekResponse where
  labels : Option (List RawLabel)
  deriving DecidableEq, Repr

/-- The parameters of a `create_bucket` call: the bucket name and the
optional `CreateBucketConfiguration.LocationConstraint`. -/
structure CreateParams where
  bucket : String
  locationConstraint : Option String
  deriving DecidableEq, Repr

/-- What `ensure_bucket_exists` did: the `create_bucket` call it made (if
any) and the `ClientError` that escaped it (if any). -/
structure ProvisionTrace where
  created : Option CreateParams
  result : Option ClientError
  deriving DecidableEq, Repr

/-- The "not found" test of line 20:
`code in {'404', 'NoSuchBucket'} or http == 404`. -/
def isNotFound (e : ClientError) : Bool :=
  e.code = "404" || e.code = "NoSuchBucket" || e.httpStatus = 404

/-- `ensure_bucket_exists` (lines 13-27).  `head` is the outcome of the
`head_bucket` call (`none` = success, `some e` = `ClientError e`);
`createErr` is the outcome of a `create_bucket` call, should one be made. -/
def ensure_bucket_exists (head createErr : Option ClientError)
    (bucket region : String) : ProvisionTrace :=
  match head with
  | none => ⟨none, none⟩
  | some e =>
    if isNotFound e then
      ⟨some ⟨bucket, if region = "us-east-1" then none else some region⟩,
       createErr⟩
    else ⟨none, some e⟩

/-- The oracle environment: filesystem and remote services.
`rek` takes the key, `MaxLabels` and `MinConfidence` and returns either an
exception or the response. -/
structure Env where
  profileFound : String → Bool
  headBucket : Option ClientError
  createBucket : Option ClientError
  isFile : String → Bool
  uploadResult : String → Option PyError
  etag : String → String
  rek : String → Nat → Rat → Except PyError RekResponse

/-- The loop body of `upload_images` (lines 30-45): skip non-files with a
warning, otherwise upload (a failure raises out of the function), then
`head_object` for the ETag and append the `(key, etag)` record. -/
def uploadLoop (env : Env) (pre : String) :
    List String → List (String × String) → Except PyError (List (String × String))
  | [], acc => .ok acc
  | loc :: rest, acc =>
    if env.isFile loc then
      match env.uploadResult loc with
      | some e => .error e
      | none =>
        uploadLoop env pre rest
          (acc ++ [(derive_key pre loc, env.etag (derive_key pre loc))])
    else uploadLoop env pre rest acc

/-- `upload_images` (lines 30-45), returning the ordered upload records. -/
def upload_images (env : Env) (images : List String) (pre : String) :
    Except PyError (List (String × String)) :=
  uploadLoop env pre images []

/-- Normalization of one raw label (lines 56-59): `lbl['Name']` then
`float(lbl['Confidence'])`; a missing field raises `KeyError`. -/
def normalizeLabel (l : RawLabel) : Except PyError Label :=
  match l.rawName with
  | none => .error (.keyError "Name")
  | some n =>
    match l.rawConfidence with
    | none => .error (.keyError "Confidence")
    | some c => .ok ⟨n, c⟩

/-- Normalization of the whole label list, in response order. -/
def normalizeLabels : List RawLabel → Except PyError (List Label)
  | [] => .ok []
  | l :: ls =>
    match normalizeLabel l with
    | .error e => .error e
    | .ok v =>
      match normalizeLabels ls with
      | .error e => .error e
      | .ok vs => .ok (v :: vs)

/-- One iteration of the `detect_labels_for_keys` generator (lines 48-60):
call the service for `key`, default a missing `Labels` field to `[]`, and
normalize each entry. -/
def detect_labels_for_key (env : Env) (key : String)
    (maxLabels : Nat) (minConf : Rat) : Except PyError (List Label) :=
  match env.rek key maxLabels minConf with
  | .error e => .error e
  | .ok resp => normalizeLabels (resp.labels.getD [])

/-- The aggregate result map: a Python dict as an insertion-ordered
association list with string keys. -/
abbrev CombinedMap := List (String × List Label)

/-- A CSV data row `(s3_key, label, confidence)`. -/
abbrev Row := String × String × Rat

/-- Python dict assignment `m[k] = v`: overwrite in place if the key is
present, else append. -/
def dictInsert (m : CombinedMap) (k : String) (v : List Label) : CombinedMap :=
  if m.any (fun p => p.1 = k) then
    m.map (fun p => if p.1 = k then (k, v) else p)
  else m ++ [(k, v)]

/-- The key list of the aggregate result map. -/
def dictKeys (m : CombinedMap) : List String :=
  m.map Prod.fst

/-- Sum of the label-list lengths over all entries of the map. -/
def sumLen (m : CombinedMap) : Nat :=
  (m.map (fun p => p.2.length)).sum

/-- The aggregation loop of `main` (lines 129-133): for each key in order,
detect, store `combined[key] = labels`, and append one row per label. -/
def aggLoop (env : Env) (maxLabels : Nat) (minConf : Rat) :
    List String → CombinedMap → List Row → Except PyError (CombinedMap × List Row)
  | [], combined, rows => .ok (combined, rows)
  | k :: ks, combined, rows =>
    match detect_labels_for_key env k maxLabels minConf with
    | .error e => .error e
    | .ok labels =>
      aggLoop env maxLabels minConf ks (dictInsert combined k labels)
        (rows ++ labels.map (fun l => (k, l.name, l.confidence)))

/-- One per-image output document: `{'s3_key': key, 'labels': labels}`. -/
structure PerImageDoc where
  s3_key : String
  labels : List Label
  deriving DecidableEq, Repr

/-- `write_per_image_json` (lines 80-87) as data: the ordered sequence of
(filename, document) writes it performs. -/
def write_per_image_json (results : CombinedMap) : List (String × PerImageDoc) :=
  results.map (fun p => (perImageFilename p.1, ⟨p.1, p.2⟩))

/-- The content a filename holds after a sequence of writes: the last
write to that name wins. -/
def lastWrite (writes : List (String × PerImageDoc)) (fname : String) :
    Option PerImageDoc :=
  writes.foldl (fun acc w => if w.1 = fname then some w.2 else acc) none

/-- The output artifacts of a successful run. -/
structure Outputs where
  csvPath : String
  csvRows : List Row
  jsonPath : String
  combined : CombinedMap
  perImage : Option (String × List (String × PerImageDoc))
  deriving DecidableEq, Repr

/-- How one invocation of the driver terminates. -/
inductive RunResult where
  /-- `sys.exit(code)` after printing `msg` -/
  | exited (code : Nat) (msg : String)
  /-- an exception escaped `main` uncaught -/
  | uncaught (e : PyError)
  /-- normal completion with all requested outputs written -/
  | finished (out : Outputs)
  deriving DecidableEq, Repr

/-- The command-line arguments of `main` (lines 91-102). -/
structure Args where
  bucket : String
  region : String
  images : List String
  keyPrefix : String
  out_csv : String
  out_json : String
  json_per_image_dir : Option String
  max_labels : Nat
  min_confidence : Rat
  profile : Option String

/-- Stage 3+ of the driver (lines 121-144): upload (uncaught on failure),
empty-batch check, detection loop with its two handlers, then the writers. -/
def mainAfterBucket (args : Args) (env : Env) : RunResult :=
  match upload_images env args.images args.keyPrefix with
  | .error e => .uncaught e
  | .ok uploads =>
    if uploads.map Prod.fst = [] then .exited 4 "No images uploaded; exiting."
    else
      match aggLoop env args.max_labels args.min_confidence
          (uploads.map Prod.fst) [] [] with
      | .error .noCredentials =>
        .exited 5 "No AWS credentials found. Run aws configure."
      | .error (.clientError _) => .exited 6 "DetectLabels failed"
      | .error e => .uncaught e
      | .ok (combined, rows) =>
        .finished
          { csvPath := args.out_csv
            csvRows := rows
            jsonPath := args.out_json
            combined := combined
            perImage := args.json_per_image_dir.map
              (fun d => (d, write_per_image_json combined)) }

/-- Stage 2 of the driver (lines 115-119): provisioning; a `ClientError`
out of `ensure_bucket_exists` maps to exit code 3. -/
def mainAfterSession (args : Args) (env : Env) : RunResult :=
  match (ensure_bucket_exists env.headBucket env.createBucket
      args.bucket args.region).result with
  | some _ => .exited 3 "Failed to ensure bucket exists"
  | none => mainAfterBucket args env

/-- The driver `main` (lines 90-144).  Stage 1 (lines 104-113): session
construction, exiting 2 when the named profile is not found. -/
def main (args : Args) (env : Env) : RunResult :=
  match args.profile with
  | some p =>
    if env.profileFound p then mainAfterSession args env
    else .exited 2 "AWS profile not found"
  | none => mainAfterSession args env

/-- Projection: the CSV rows of a finished run, if the run finished. -/
def runRows (r : RunResult) : Option (List Row) :=
  match r with
  | .finished o => some o.csvRows
  | _ => none

/-- Projection: the combined map of a finished run, if the run finished. -/
def runCombined (r : RunResult) : Option CombinedMap :=
  match r with
  | .finished o => some o.combined
  | _ => none

end DetectLabels

namespace DetectLabels

/-! ### String helpers -/

/-- Stripping trailing slashes is the identity on a string that does not
end in a slash. -/
theorem pyRstripSlash_eq_self (s : String)
    (h : s.toList.getLast? ≠ some '/') : pyRstripSlash s = s := by
  unfold pyRstripSlash
  have h1 : s.toList.reverse.dropWhile (fun c => decide (c = '/'))
      = s.toList.reverse := by
    cases hr : s.toList.reverse with
    | nil => rfl
    | cons a t =>
      have ha : s.toList.getLast? = some a := by
        rw [← List.head?_reverse, hr]; rfl
      have : ¬ (decide (a = '/') = true) := by
        simp only [decide_eq_true_eq]
        intro e
        exact h (by rw [ha, e])
      exact List.dropWhile_cons_of_neg this
  rw [h1, List.reverse_reverse]
  cases s
  rfl

/-! ### C5: remote key derivation -/

/-- C5 counterexample: for the non-empty prefix `"uploads/"` the derived
key is `"uploads/a.jpg"`, not `"uploads/" + "/" + basename` — the code
first strips trailing slashes from the prefix. -/
theorem derive_key_counterexample :
    derive_key "uploads/" "a.jpg" = "uploads/a.jpg" ∧
    derive_key "uploads/" "a.jpg" ≠ "uploads/" ++ "/" ++ basename "a.jpg" := by
  decide

/-- C5 (amended): the remote key is `rstrip(prefix, '/') + "/" + basename`
for a non-empty prefix — hence exactly `prefix + "/" + basename` whenever
the prefix does not end in a slash — and plain `basename` for the empty
prefix. -/
theorem derive_key_spec (pre loc : String) :
    (pre = "" → derive_key pre loc = basename loc) ∧
    (pre ≠ "" →
      derive_key pre loc = pyRstripSlash pre ++ "/" ++ basename loc) ∧
    (pre ≠ "" → pre.toList.getLast? ≠ some '/' →
      derive_key pre loc = pre ++ "/" ++ basename loc) := by
  refine ⟨fun h => by simp [derive_key, h], fun h => by simp [derive_key, h],
    fun h hl => ?_⟩
  rw [derive_key, if_neg h, pyRstripSlash_eq_self pre hl]

/-- C5 witness: a concrete instance of the amended derivation. -/
theorem derive_key_spec_witness :
    derive_key "uploads" "a/x.jpg" = "uploads" ++ "/" ++ basename "a/x.jpg" :=
  (derive_key_spec "uploads" "a/x.jpg").2.2 (by decide) (by decide)

/-! ### C3: container provisioner -/

/-- C3: `ensure_bucket_exists` attempts creation exactly when the
existence check fails with a "not found" signal; the creation call omits
the location constraint precisely for the default region `us-east-1`; and
any non-"not found" `ClientError` propagates unmodified with no creation
attempt. -/
theorem ensure_bucket_exists_spec (head createErr : Option ClientError)
    (bucket region : String) :
    ((ensure_bucket_exists head createErr bucket region).created.isSome ↔
      ∃ e, head = some e ∧ isNotFound e = true) ∧
    (∀ e, head = some e → isNotFound e = true → region = "us-east-1" →
      (ensure_bucket_exists head createErr bucket region).created =
        some ⟨bucket, none⟩) ∧
    (∀ e, head = some e → isNotFound e = false →
      ensure_bucket_exists head createErr bucket region = ⟨none, some e⟩) := by
  refine ⟨?_, ?_, ?_⟩
  · cases head with
    | none => simp [ensure_bucket_exists]
    | some e =>
      by_cases hn : isNotFound e = true
      · simp [ensure_bucket_exists, hn]
      · simp [ensure_bucket_exists, hn]
  · intro e he hn hr
    subst he hr
    simp [ensure_bucket_exists, hn]
  · intro e he hn
    subst he
    simp [ensure_bucket_exists, hn]

/-- C3 witness: a 404 existence check in the default region leads to a
creation call carrying only the bucket name. -/
theorem ensure_bucket_exists_spec_witness :
    (ensure_bucket_exists (some ⟨"404", 404⟩) none "bkt" "us-east-1").created
      = some ⟨"bkt", none⟩ :=
  (ensure_bucket_exists_spec (some ⟨"404", 404⟩) none "bkt" "us-east-1").2.1
    ⟨"404", 404⟩ rfl (by decide) rfl

/-! ### C9: missing `Labels` field -/

/-- C9: when the detection response carries no `Labels` field at all, the
detector yields the pair with an empty label list for that key, rather
than failing or skipping it. -/
theorem detect_labels_missing_field (env : Env) (key : String)
    (maxLabels : Nat) (minConf : Rat) (resp : RekResponse)
    (hr : env.rek key maxLabels minConf = .ok resp)
    (hl : resp.labels = none) :
    detect_labels_for_key env key maxLabels minConf = .ok [] := by
  unfold detect_labels_for_key
  rw [hr]
  simp [hl]
  rfl

end DetectLabels

namespace DetectLabels

/-- An environment whose detection responses carry no `Labels` field. -/
def noLabelsFieldEnv : Env :=
  { profileFound := fun _ => true
    headBucket := none
    createBucket := none
    isFile := fun _ => true
    uploadResult := fun _ => none
    etag := fun _ => "etag"
    rek := fun _ _ _ => .ok ⟨none⟩ }

/-- C9 witness: concrete key with a `Labels`-less response. -/
theorem detect_labels_missing_field_witness :
    detect_labels_for_key noLabelsFieldEnv "uploads/a.jpg" 25 70 = .ok [] :=
  detect_labels_missing_field noLabelsFieldEnv "uploads/a.jpg" 25 70
    ⟨none⟩ rfl rfl

/-! ### C10: per-image filename collisions -/

/-- C10: the key-to-filename mapping of the per-item writer is not
injective — the distinct keys `"a/b"` and `"a__b"` map to the same
filename, and the write performed later (dict order) is the one that
survives at that filename. -/
theorem perImageFilename_collision :
    "a/b" ≠ "a__b" ∧
    perImageFilename "a/b" = perImageFilename "a__b" ∧
    lastWrite
      (write_per_image_json
        [("a/b", []), ("a__b", [⟨"Cat", 91⟩])]) "a__b.json"
      = some ⟨"a__b", [⟨"Cat", 91⟩]⟩ := by
  decide

end DetectLabels

namespace DetectLabels

/-! ### C6: uploader -/

/-- The upload loop appends, to its accumulator and in input order, one
record per item that is a regular file, provided no upload attempt fails. -/
theorem uploadLoop_spec (env : Env) (pre : String) (images : List String)
    (hok : ∀ l ∈ images, env.isFile l = true → env.uploadResult l = none) :
    ∀ acc, uploadLoop env pre images acc =
      .ok (acc ++ (images.filter (fun l => env.isFile l)).map
        (fun l => (derive_key pre l, env.etag (derive_key pre l)))) := by
  induction images with
  | nil => intro acc; simp [uploadLoop]
  | cons l rest ih =>
    intro acc
    by_cases hf : env.isFile l = true
    · have hu : env.uploadResult l = none := hok l (by simp) hf
      rw [uploadLoop, if_pos hf, hu]
      rw [ih (fun x hx => hok x (by simp [hx]))]
      simp [List.filter_cons, hf]
    · rw [uploadLoop, if_neg hf]
      rw [ih (fun x hx => hok x (by simp [hx]))]
      simp only [List.filter_cons]
      rw [if_neg (by simpa using hf)]

/-- C6: with no upload failures, `upload_images` processes the items in
the given order, records exactly one `(key, etag)` pair per item that is a
regular file, skips the rest, and preserves input order. -/
theorem upload_images_spec (env : Env) (images : List String) (pre : String)
    (hok : ∀ l ∈ images, env.isFile l = true → env.uploadResult l = none) :
    upload_images env images pre =
      .ok ((images.filter (fun l => env.isFile l)).map
        (fun l => (derive_key pre l, env.etag (derive_key pre l)))) := by
  unfold upload_images
  rw [uploadLoop_spec env pre images hok []]
  simp

/-- An environment where every remote operation succeeds, every local
path except `missing.jpg` is a regular file, and every detection returns
one `Cat` label. -/
def mixedEnv : Env :=
  { profileFound := fun _ => true
    headBucket := none
    createBucket := none
    isFile := fun l => l != "missing.jpg"
    uploadResult := fun _ => none
    etag := fun _ => "etag"
    rek := fun _ _ _ => .ok ⟨some [⟨some "Cat", some 91⟩]⟩ }

/-- C6 witness: the spec example batch — `missing.jpg` is skipped, the
others produce records in input order. -/
theorem upload_images_spec_witness :
    upload_images mixedEnv ["a.jpg", "missing.jpg", "b.png"] "uploads" =
      .ok [("uploads/a.jpg", "etag"), ("uploads/b.png", "etag")] := by
  rw [upload_images_spec mixedEnv ["a.jpg", "missing.jpg", "b.png"] "uploads"
    (fun l _ _ => rfl)]
  rfl

end DetectLabels

namespace DetectLabels

/-! ### Concrete environments and argument sets -/

/-- A two-image argument set matching the spec scenario: default region,
prefix `uploads`, no per-image directory, no named profile. -/
def batchArgs : Args :=
  { bucket := "bkt"
    region := "us-east-1"
    images := ["a.jpg", "b.png"]
    keyPrefix := "uploads"
    out_csv := "labels.csv"
    out_json := "labels.json"
    json_per_image_dir := none
    max_labels := 25
    min_confidence := 70
    profile := none }

/-- An environment where everything succeeds and every detection returns
a single `Cat` label. -/
def okEnv : Env :=
  { profileFound := fun _ => true
    headBucket := none
    createBucket := none
    isFile := fun _ => true
    uploadResult := fun _ => none
    etag := fun _ => "etag"
    rek := fun _ _ _ => .ok ⟨some [⟨some "Cat", some 91⟩]⟩ }

/-- Like `okEnv` but no local path is a regular file. -/
def noFileEnv : Env :=
  { okEnv with isFile := fun _ => false }

/-- Like `okEnv` but every detection response has a label entry with no
`Name` field. -/
def malformedEnv : Env :=
  { okEnv with rek := fun _ _ _ => .ok ⟨some [⟨none, some 91⟩]⟩ }

/-- Like `okEnv` but every upload attempt raises. -/
def uploadFailEnv : Env :=
  { okEnv with uploadResult := fun _ => some (.uploadFailed "AccessDenied") }

/-- Like `okEnv` but credentials lapse after the first detection call:
only `uploads/a.jpg` is detected successfully. -/
def credsLapseEnv : Env :=
  { okEnv with
    rek := fun k _ _ =>
      if k = "uploads/a.jpg" then .ok ⟨some [⟨some "Cat", some 91⟩]⟩
      else .error .noCredentials }

/-! ### C2: termination signals -/

/-- C2 counterexample: a detection response whose label entry lacks the
`Name` field makes a `KeyError` escape the driver uncaught — the run does
not end in any `sys.exit` signal, refuting "no exception escapes past the
driver". -/
theorem main_exit_codes_counterexample :
    main batchArgs malformedEnv = .uncaught (.keyError "Name") := by
  decide

/-- Like `okEnv` but the bucket existence check fails with HTTP 403
(permission denied), which is not a "not found" signal. -/
def provisionFailEnv : Env :=
  { okEnv with headBucket := some ⟨"403", 403⟩ }

/-- Session setup passes: the named profile, if any, resolves. -/
def profileOk (args : Args) (env : Env) : Prop :=
  ∀ p, args.profile = some p → env.profileFound p = true

/-- Provisioning passes: no `ClientError` escapes `ensure_bucket_exists`. -/
def provisionOk (args : Args) (env : Env) : Prop :=
  (ensure_bucket_exists env.headBucket env.createBucket
    args.bucket args.region).result = none

/-- With a resolvable profile the driver proceeds past session setup. -/
theorem main_eq_afterSession (args : Args) (env : Env)
    (hp : profileOk args env) :
    main args env = mainAfterSession args env := by
  unfold main
  cases hpr : args.profile with
  | none => rfl
  | some p => simp [hp p hpr]

/-- With provisioning passing the driver proceeds to the upload stage. -/
theorem mainAfterSession_eq_afterBucket (args : Args) (env : Env)
    (hb : provisionOk args env) :
    mainAfterSession args env = mainAfterBucket args env := by
  unfold mainAfterSession
  rw [show (ensure_bucket_exists env.headBucket env.createBucket
    args.bucket args.region).result = none from hb]

/-- C2 (amended): the failure classes the driver handles map each to its
own fixed non-zero signal and message — unresolvable profile to 2,
provisioning errors to 3, an empty upload batch to 4, missing credentials
during detection to 5, client errors during detection to 6 — and,
conversely, every exit the driver performs carries one of these five
distinct codes and a non-empty message.  By contrast an upload failure,
and a malformed detection response (a label entry whose `Name` or
`Confidence` field is missing, raising `KeyError`), escape the driver as
uncaught exceptions instead of being mapped to a signal. -/
theorem main_exit_codes (args : Args) (env : Env) :
    (∀ p, args.profile = some p → env.profileFound p = false →
      main args env = .exited 2 "AWS profile not found") ∧
    (profileOk args env → ∀ e,
      (ensure_bucket_exists env.headBucket env.createBucket
        args.bucket args.region).result = some e →
      main args env = .exited 3 "Failed to ensure bucket exists") ∧
    (profileOk args env → provisionOk args env → ∀ e,
      upload_images env args.images args.keyPrefix = .error e →
      main args env = .uncaught e) ∧
    (profileOk args env → provisionOk args env →
      upload_images env args.images args.keyPrefix = .ok [] →
      main args env = .exited 4 "No images uploaded; exiting.") ∧
    (profileOk args env → provisionOk args env → ∀ ups,
      upload_images env args.images args.keyPrefix = .ok ups →
      ups.map Prod.fst ≠ [] →
      aggLoop env args.max_labels args.min_confidence
        (ups.map Prod.fst) [] [] = .error .noCredentials →
      main args env = .exited 5 "No AWS credentials found. Run aws configure.") ∧
    (profileOk args env → provisionOk args env → ∀ ups ce,
      upload_images env args.images args.keyPrefix = .ok ups →
      ups.map Prod.fst ≠ [] →
      aggLoop env args.max_labels args.min_confidence
        (ups.map Prod.fst) [] [] = .error (.clientError ce) →
      main args env = .exited 6 "DetectLabels failed") ∧
    (profileOk args env → provisionOk args env → ∀ ups f,
      upload_images env args.images args.keyPrefix = .ok ups →
      ups.map Prod.fst ≠ [] →
      aggLoop env args.max_labels args.min_confidence
        (ups.map Prod.fst) [] [] = .error (.keyError f) →
      main args env = .uncaught (.keyError f)) ∧
    (∀ c m, main args env = .exited c m →
      c ∈ ([2, 3, 4, 5, 6] : List Nat) ∧ m ≠ "") := by
  refine ⟨?_, ?_, ?_, ?_, ?_, ?_, ?_, ?_⟩
  · intro p hp hnf
    unfold main
    simp [hp, hnf]
  · intro hp e hb
    rw [main_eq_afterSession args env hp]
    unfold mainAfterSession
    simp [hb]
  · intro hp hb e hu
    rw [main_eq_afterSession args env hp,
      mainAfterSession_eq_afterBucket args env hb]
    unfold mainAfterBucket
    simp [hu]
  · intro hp hb hu
    rw [main_eq_afterSession args env hp,
      mainAfterSession_eq_afterBucket args env hb]
    unfold mainAfterBucket
    simp [hu]
  · intro hp hb ups hu hne ha
    rw [main_eq_afterSession args env hp,
      mainAfterSession_eq_afterBucket args env hb]
    unfold mainAfterBucket
    simp [hu, hne, ha]
  · intro hp hb ups ce hu hne ha
    rw [main_eq_afterSession args env hp,
      mainAfterSession_eq_afterBucket args env hb]
    unfold mainAfterBucket
    simp [hu, hne, ha]
  · intro hp hb ups f hu hne ha
    rw [main_eq_afterSession args env hp,
      mainAfterSession_eq_afterBucket args env hb]
    unfold mainAfterBucket
    simp [hu, hne, ha]
  · intro c m h
    unfold main mainAfterSession mainAfterBucket at h
    repeat' split at h
    all_goals cases h
    all_goals decide

/-- C2 witness: a permission-denied existence check (HTTP 403, not a
"not found" signal) maps to the provisioning signal 3. -/
theorem main_exit_codes_witness :
    main batchArgs provisionFailEnv =
      .exited 3 "Failed to ensure bucket exists" :=
  (main_exit_codes batchArgs provisionFailEnv).2.1
    (fun p hp => Option.noConfusion (show (none : Option String) = some p from hp))
    ⟨"403", 403⟩ rfl

/-! ### C4: empty batch -/

/-- C4 counterexample: when every item exists but fails to upload, the
exception escapes the driver uncaught; the run does not end with the
empty-batch signal. -/
theorem main_empty_batch_counterexample :
    main batchArgs uploadFailEnv = .uncaught (.uploadFailed "AccessDenied") ∧
    main batchArgs uploadFailEnv ≠ .exited 4 "No images uploaded; exiting." := by
  decide

/-- C4 (amended): when no input path is a regular file — so the upload
record sequence is empty — the pipeline exits with the dedicated
empty-batch signal 4; since `main` exits there, no detection call is
consulted (the conclusion holds for every `rek` oracle) and no output
artifact is produced.  Items that fail during the upload itself instead
raise an uncaught exception. -/
theorem main_empty_batch (args : Args) (env : Env)
    (hp : ∀ p, args.profile = some p → env.profileFound p = true)
    (hb : (ensure_bucket_exists env.headBucket env.createBucket
      args.bucket args.region).result = none)
    (hf : ∀ l ∈ args.images, env.isFile l = false) :
    main args env = .exited 4 "No images uploaded; exiting." := by
  have hfil : args.images.filter (fun l => env.isFile l) = [] := by
    rw [List.filter_eq_nil_iff]
    intro a ha
    simp [hf a ha]
  have hu : upload_images env args.images args.keyPrefix = .ok [] := by
    rw [upload_images_spec env args.images args.keyPrefix
      (fun l hl hfl => absurd hfl (by simp [hf l hl]))]
    rw [hfil]
    rfl
  unfold main mainAfterSession mainAfterBucket
  cases hpr : args.profile with
  | none => simp [hb, hu]
  | some p => simp [hp p hpr, hb, hu]

/-- C4 witness: the all-missing batch exits 4. -/
theorem main_empty_batch_witness :
    main batchArgs noFileEnv = .exited 4 "No images uploaded; exiting." :=
  main_empty_batch batchArgs noFileEnv
    (fun p hp => Option.noConfusion (show (none : Option String) = some p from hp))
    rfl (fun _ _ => rfl)

/-! ### C7: credentials lapse during detection -/

/-- C7: if the aggregation loop over the uploaded keys ends with a
missing-credentials error — in particular after some `(key, labels)`
pairs were already aggregated — the driver exits with signal 5; the
result is an `exited` value, not a `finished` one, so none of the three
output artifacts is produced and the labels gathered so far are dropped. -/
theorem main_noCredentials_at_detection (args : Args) (env : Env)
    (ups : List (String × String))
    (hp : ∀ p, args.profile = some p → env.profileFound p = true)
    (hb : (ensure_bucket_exists env.headBucket env.createBucket
      args.bucket args.region).result = none)
    (hu : upload_images env args.images args.keyPrefix = .ok ups)
    (hne : ups.map Prod.fst ≠ [])
    (ha : aggLoop env args.max_labels args.min_confidence
      (ups.map Prod.fst) [] [] = .error .noCredentials) :
    main args env = .exited 5 "No AWS credentials found. Run aws configure." := by
  unfold main mainAfterSession mainAfterBucket
  cases hpr : args.profile with
  | none => simp [hb, hu, hne, ha]
  | some p => simp [hp p hpr, hb, hu, hne, ha]

/-- C7 witness: credentials lapse after the first of two keys; the first
pair was aggregated, the run exits 5 and writes nothing. -/
theorem main_noCredentials_at_detection_witness :
    main batchArgs credsLapseEnv =
      .exited 5 "No AWS credentials found. Run aws configure." :=
  main_noCredentials_at_detection batchArgs credsLapseEnv
    [("uploads/a.jpg", "etag"), ("uploads/b.png", "etag")]
    (fun p hp => Option.noConfusion (show (none : Option String) = some p from hp))
    rfl rfl (by decide) rfl

end DetectLabels

namespace DetectLabels

/-! ### Dict lemmas -/

/-- Assigning to a key absent from the dict appends the new entry. -/
theorem dictInsert_of_fresh (m : CombinedMap) (k : String) (v : List Label)
    (h : ∀ p ∈ m, p.1 ≠ k) : dictInsert m k v = m ++ [(k, v)] := by
  have hany : m.any (fun p => decide (p.1 = k)) = false := by
    rw [List.any_eq_false]
    intro p hp
    simp [h p hp]
  unfold dictInsert
  rw [hany]
  simp

/-- Key membership after a dict assignment. -/
theorem mem_dictKeys_dictInsert (m : CombinedMap) (k : String)
    (v : List Label) (a : String) :
    a ∈ dictKeys (dictInsert m k v) ↔ a = k ∨ a ∈ dictKeys m := by
  unfold dictInsert dictKeys
  by_cases h : m.any (fun p => decide (p.1 = k)) = true
  · rw [if_pos h]
    simp only [List.map_map, List.mem_map, Function.comp]
    constructor
    · rintro ⟨p, hp, hpa⟩
      by_cases hk : p.1 = k
      · left
        rw [if_pos hk] at hpa
        exact hpa ▸ rfl
      · right
        rw [if_neg hk] at hpa
        exact ⟨p, hp, hpa⟩
    · rintro (rfl | ⟨p, hp, rfl⟩)
      · rw [List.any_eq_true] at h
        obtain ⟨p, hp, hpk⟩ := h
        simp only [decide_eq_true_eq] at hpk
        exact ⟨p, hp, by rw [if_pos hpk]⟩
      · by_cases hk : p.1 = k
        · exact ⟨p, hp, by rw [if_pos hk]; exact hk.symm⟩
        · exact ⟨p, hp, by rw [if_neg hk]⟩
  · rw [if_neg h]
    simp only [List.map_append, List.mem_append, List.map_cons, List.map_nil,
      List.mem_singleton]
    constructor
    · rintro (hm | hk)
      · right; exact hm
      · left; simpa using hk
    · rintro (rfl | hm)
      · right; simp
      · left; exact hm

/-- Every entry of `dictInsert m k v` is the new entry or an old one. -/
theorem mem_dictInsert (m : CombinedMap) (k : String) (v : List Label)
    (p : String × List Label) (hp : p ∈ dictInsert m k v) :
    p = (k, v) ∨ p ∈ m := by
  unfold dictInsert at hp
  by_cases h : m.any (fun q => decide (q.1 = k)) = true
  · rw [if_pos h] at hp
    rw [List.mem_map] at hp
    obtain ⟨q, hq, he⟩ := hp
    by_cases hk : q.1 = k
    · left
      rw [if_pos hk] at he
      exact he.symm
    · right
      rw [if_neg hk] at he
      exact he ▸ hq
  · rw [if_neg h] at hp
    rw [List.mem_append] at hp
    rcases hp with hm | hs
    · right; exact hm
    · left; simpa using hs

/-- Appending a fresh entry adds its label count to the total. -/
theorem sumLen_append (m : CombinedMap) (k : String) (v : List Label) :
    sumLen (m ++ [(k, v)]) = sumLen m + v.length := by
  simp [sumLen]

/-! ### Aggregation-loop lemmas -/

/-- Every entry of a successful aggregation is the detector's normalized
output for its key. -/
theorem aggLoop_ok_entries (env : Env) (mL : Nat) (mC : Rat) :
    ∀ (keys : List String) (combined : CombinedMap) (rows : List Row)
      (c : CombinedMap) (r : List Row),
      (∀ k ls, (k, ls) ∈ combined →
        detect_labels_for_key env k mL mC = .ok ls) →
      aggLoop env mL mC keys combined rows = .ok (c, r) →
      ∀ k ls, (k, ls) ∈ c → detect_labels_for_key env k mL mC = .ok ls := by
  intro keys
  induction keys with
  | nil =>
    intro combined rows c r hinv ha
    rw [aggLoop] at ha
    cases ha
    exact hinv
  | cons k ks ih =>
    intro combined rows c r hinv ha
    rw [aggLoop] at ha
    cases hd : detect_labels_for_key env k mL mC with
    | error e =>
      rw [hd] at ha
      cases ha
    | ok labels =>
      rw [hd] at ha
      refine ih (dictInsert combined k labels) _ c r ?_ ha
      intro k' ls' hm
      rcases mem_dictInsert _ _ _ _ hm with he | hm'
      · rw [Prod.mk.injEq] at he
        obtain ⟨rfl, rfl⟩ := he
        exact hd
      · exact hinv k' ls' hm'

/-- The key set of a successful aggregation is the initial key set plus
the processed keys. -/
theorem aggLoop_ok_keys (env : Env) (mL : Nat) (mC : Rat) :
    ∀ (keys : List String) (combined : CombinedMap) (rows : List Row)
      (c : CombinedMap) (r : List Row),
      aggLoop env mL mC keys combined rows = .ok (c, r) →
      ∀ a, a ∈ dictKeys c ↔ a ∈ dictKeys combined ∨ a ∈ keys := by
  intro keys
  induction keys with
  | nil =>
    intro combined rows c r ha a
    rw [aggLoop] at ha
    cases ha
    simp
  | cons k ks ih =>
    intro combined rows c r ha a
    rw [aggLoop] at ha
    cases hd : detect_labels_for_key env k mL mC with
    | error e =>
      rw [hd] at ha
      cases ha
    | ok labels =>
      rw [hd] at ha
      rw [ih _ _ c r ha a, mem_dictKeys_dictInsert]
      constructor
      · rintro ((rfl | hm) | hk)
        · right; simp
        · left; exact hm
        · right; simp [hk]
      · rintro (hm | hk)
        · left; right; exact hm
        · rcases List.mem_cons.mp hk with rfl | hks
          · left; left; rfl
          · right; exact hks

/-- Every row produced by a successful aggregation references a key of
the final aggregate map. -/
theorem aggLoop_rows_keys (env : Env) (mL : Nat) (mC : Rat) :
    ∀ (keys : List String) (combined : CombinedMap) (rows : List Row)
      (c : CombinedMap) (r : List Row),
      (∀ p ∈ rows, p.1 ∈ dictKeys combined) →
      aggLoop env mL mC keys combined rows = .ok (c, r) →
      ∀ p ∈ r, p.1 ∈ dictKeys c := by
  intro keys
  induction keys with
  | nil =>
    intro combined rows c r hinv ha
    rw [aggLoop] at ha
    cases ha
    exact hinv
  | cons k ks ih =>
    intro combined rows c r hinv ha
    rw [aggLoop] at ha
    cases hd : detect_labels_for_key env k mL mC with
    | error e =>
      rw [hd] at ha
      cases ha
    | ok labels =>
      rw [hd] at ha
      refine ih _ _ c r ?_ ha
      intro p hp
      rcases List.mem_append.mp hp with hold | hnew
      · rw [mem_dictKeys_dictInsert]
        right
        exact hinv p hold
      · rw [mem_dictKeys_dictInsert]
        left
        obtain ⟨l, hl, rfl⟩ := List.mem_map.mp hnew
        rfl

/-- With pairwise-distinct keys, all fresh for the accumulator, the rows
added by a successful aggregation count exactly the labels added to the
map. -/
theorem aggLoop_nodup_length (env : Env) (mL : Nat) (mC : Rat) :
    ∀ (keys : List String) (combined : CombinedMap) (rows : List Row)
      (c : CombinedMap) (r : List Row),
      keys.Nodup →
      (∀ k ∈ keys, ∀ p ∈ combined, p.1 ≠ k) →
      aggLoop env mL mC keys combined rows = .ok (c, r) →
      r.length + sumLen combined = rows.length + sumLen c := by
  intro keys
  induction keys with
  | nil =>
    intro combined rows c r _ _ ha
    rw [aggLoop] at ha
    cases ha
    rfl
  | cons k ks ih =>
    intro combined rows c r hnd hfresh ha
    rw [aggLoop] at ha
    cases hd : detect_labels_for_key env k mL mC with
    | error e =>
      rw [hd] at ha
      cases ha
    | ok labels =>
      rw [hd] at ha
      have ha' : aggLoop env mL mC ks (combined ++ [(k, labels)])
          (rows ++ labels.map (fun l => (k, l.name, l.confidence)))
          = .ok (c, r) := by
        rw [← dictInsert_of_fresh combined k labels (hfresh k (by simp))]
        exact ha
      have hk_not := (List.nodup_cons.mp hnd).1
      have hnd' := (List.nodup_cons.mp hnd).2
      have hfresh' : ∀ k' ∈ ks, ∀ p ∈ combined ++ [(k, labels)], p.1 ≠ k' := by
        intro k' hk' p hp
        rcases List.mem_append.mp hp with hm | hs
        · exact hfresh k' (List.mem_cons_of_mem _ hk') p hm
        · have hpe : p = (k, labels) := by simpa using hs
          rw [hpe]
          intro he
          exact hk_not (by rw [show k = k' from he]; exact hk')
      have hlen := ih (combined ++ [(k, labels)]) _ c r hnd' hfresh' ha'
      rw [sumLen_append] at hlen
      simp only [List.length_append, List.length_map] at hlen
      omega

/-! ### Driver inversion -/

/-- A finished post-bucket stage determines a successful upload and a
successful aggregation producing exactly the written outputs. -/
theorem mainAfterBucket_finished_inv (args : Args) (env : Env) (out : Outputs)
    (hm : mainAfterBucket args env = .finished out) :
    ∃ ups c r,
      upload_images env args.images args.keyPrefix = .ok ups ∧
      aggLoop env args.max_labels args.min_confidence
        (ups.map Prod.fst) [] [] = .ok (c, r) ∧
      out.csvRows = r ∧ out.combined = c := by
  unfold mainAfterBucket at hm
  split at hm
  · cases hm
  · rename_i uploads heq
    split at hm
    · cases hm
    · split at hm
      · cases hm
      · cases hm
      · cases hm
      · rename_i combined rows ha
        cases hm
        exact ⟨uploads, combined, rows, heq, ha, rfl, rfl⟩

/-- A finished run determines a successful upload and a successful
aggregation producing exactly the written outputs. -/
theorem main_finished_inv (args : Args) (env : Env) (out : Outputs)
    (hm : main args env = .finished out) :
    ∃ ups c r,
      upload_images env args.images args.keyPrefix = .ok ups ∧
      aggLoop env args.max_labels args.min_confidence
        (ups.map Prod.fst) [] [] = .ok (c, r) ∧
      out.csvRows = r ∧ out.combined = c := by
  unfold main mainAfterSession at hm
  split at hm
  · split at hm
    · split at hm
      · cases hm
      · exact mainAfterBucket_finished_inv args env out hm
    · cases hm
  · split at hm
    · cases hm
    · exact mainAfterBucket_finished_inv args env out hm

end DetectLabels

namespace DetectLabels

/-! ### C1: row/aggregate balance -/

/-- Arguments whose two distinct local paths share the basename `x.jpg`,
so both map to the single remote key `uploads/x.jpg`. -/
def dupArgs : Args :=
  { batchArgs with images := ["imgs/x.jpg", "alt/x.jpg"] }

/-- C1 counterexample: with two distinct local paths sharing a basename
the run reaches aggregation and finishes with two rows, while the
aggregate map holds a single one-label entry — the row count (2) differs
from the sum of label-list lengths (1). -/
theorem main_rows_balance_counterexample :
    runRows (main dupArgs okEnv) =
      some [("uploads/x.jpg", "Cat", 91), ("uploads/x.jpg", "Cat", 91)] ∧
    runCombined (main dupArgs okEnv) =
      some [("uploads/x.jpg", [⟨"Cat", 91⟩])] ∧
    (runRows (main dupArgs okEnv)).map List.length ≠
      (runCombined (main dupArgs okEnv)).map sumLen := by
  decide

/-- C1 (amended): in every run that reaches aggregation and finishes,
every row references a key present in the aggregate map; and provided the
uploaded remote keys are pairwise distinct (in particular, when all
basenames are distinct), the row-list length equals the sum of the
label-list lengths over the map.  When distinct local paths share a
basename, the shared key is detected once per occurrence and its rows are
appended repeatedly while the map entry is overwritten, breaking the
length equality. -/
theorem main_rows_balance (args : Args) (env : Env) (out : Outputs)
    (ups : List (String × String))
    (hu : upload_images env args.images args.keyPrefix = .ok ups)
    (hm : main args env = .finished out) :
    (∀ p ∈ out.csvRows, p.1 ∈ dictKeys out.combined) ∧
    ((ups.map Prod.fst).Nodup →
      out.csvRows.length = sumLen out.combined) := by
  obtain ⟨ups', c, r, hu', ha, hrows, hcomb⟩ := main_finished_inv args env out hm
  rw [hu] at hu'
  cases hu'
  constructor
  · rw [hrows, hcomb]
    exact aggLoop_rows_keys env args.max_labels args.min_confidence
      (ups.map Prod.fst) [] [] c r (by intro p hp; cases hp) ha
  · intro hnd
    have hlen := aggLoop_nodup_length env args.max_labels args.min_confidence
      (ups.map Prod.fst) [] [] c r hnd (by intro k _ p hp; cases hp) ha
    rw [hrows, hcomb]
    simpa [sumLen] using hlen

/-- The outputs of the successful two-image reference run. -/
def okOut : Outputs :=
  { csvPath := "labels.csv"
    csvRows := [("uploads/a.jpg", "Cat", 91), ("uploads/b.png", "Cat", 91)]
    jsonPath := "labels.json"
    combined := [("uploads/a.jpg", [⟨"Cat", 91⟩]), ("uploads/b.png", [⟨"Cat", 91⟩])]
    perImage := none }

/-- C1 witness: the reference run has distinct keys and balanced counts. -/
theorem main_rows_balance_witness :
    okOut.csvRows.length = sumLen okOut.combined :=
  (main_rows_balance batchArgs okEnv okOut
    [("uploads/a.jpg", "etag"), ("uploads/b.png", "etag")]
    rfl rfl).2 (by decide)

/-! ### C8: combined JSON round trip -/

/-- A minimal JSON value, rich enough for the combined document
`json.dump` writes: objects, arrays, strings and numbers. -/
inductive Json where
  | str (s : String)
  | num (q : Rat)
  | arr (elems : List Json)
  | obj (fields : List (String × Json))

/-- Serialization of one normalized label. -/
def encodeLabel (l : Label) : Json :=
  .obj [("name", .str l.name), ("confidence", .num l.confidence)]

/-- Serialization of an ordered label list. -/
def encodeLabels (ls : List Label) : Json :=
  .arr (ls.map encodeLabel)

/-- Serialization of the combined map, in insertion order — the document
`write_combined_json` (lines 73-77) produces. -/
def encodeCombined (m : CombinedMap) : Json :=
  .obj (m.map (fun p => (p.1, encodeLabels p.2)))

/-- Parse one label object back. -/
def decodeLabel : Json → Option Label
  | .obj [("name", .str n), ("confidence", .num q)] => some ⟨n, q⟩
  | _ => none

/-- Parse a list of label objects back, in order. -/
def decodeLabelList : List Json → Option (List Label)
  | [] => some []
  | j :: js =>
    match decodeLabel j, decodeLabelList js with
    | some l, some ls => some (l :: ls)
    | _, _ => none

/-- Parse a label array back. -/
def decodeLabels : Json → Option (List Label)
  | .arr js => decodeLabelList js
  | _ => none

/-- Parse the fields of the combined document back, in order. -/
def decodeFields : List (String × Json) → Option CombinedMap
  | [] => some []
  | (k, j) :: fs =>
    match decodeLabels j, decodeFields fs with
    | some ls, some rest => some ((k, ls) :: rest)
    | _, _ => none

/-- Parse the combined document back into a key-to-labels map. -/
def decodeCombined : Json → Option CombinedMap
  | .obj fs => decodeFields fs
  | _ => none

/-- One label survives the round trip. -/
theorem decodeLabel_encodeLabel (l : Label) :
    decodeLabel (encodeLabel l) = some l := by
  cases l
  rfl

/-- A label list survives the round trip. -/
theorem decodeLabelList_encode (ls : List Label) :
    decodeLabelList (ls.map encodeLabel) = some ls := by
  induction ls with
  | nil => rfl
  | cons l ls ih =>
    simp [decodeLabelList, decodeLabel_encodeLabel, ih]

/-- The combined map survives the round trip. -/
theorem decodeCombined_encodeCombined (m : CombinedMap) :
    decodeCombined (encodeCombined m) = some m := by
  suffices h : decodeFields (m.map (fun p => (p.1, encodeLabels p.2))) = some m by
    simpa [encodeCombined, decodeCombined] using h
  induction m with
  | nil => rfl
  | cons p ps ih =>
    obtain ⟨k, ls⟩ := p
    simp only [encodeLabels] at ih
    simp [decodeFields, decodeLabels, encodeLabels, decodeLabelList_encode, ih]

/-- C8: for every finished run, parsing the combined document back yields
exactly the aggregate map; that map's key set is exactly the set of
uploaded (hence successfully detected) remote keys; and each entry's
label list is the detector's normalized output for its key, in the
detector's order. -/
theorem main_combined_roundtrip (args : Args) (env : Env) (out : Outputs)
    (ups : List (String × String))
    (hu : upload_images env args.images args.keyPrefix = .ok ups)
    (hm : main args env = .finished out) :
    decodeCombined (encodeCombined out.combined) = some out.combined ∧
    (∀ a, a ∈ dictKeys out.combined ↔ a ∈ ups.map Prod.fst) ∧
    (∀ k ls, (k, ls) ∈ out.combined →
      detect_labels_for_key env k args.max_labels args.min_confidence
        = .ok ls) := by
  obtain ⟨ups', c, r, hu', ha, hrows, hcomb⟩ := main_finished_inv args env out hm
  rw [hu] at hu'
  cases hu'
  refine ⟨decodeCombined_encodeCombined _, ?_, ?_⟩
  · intro a
    rw [hcomb]
    rw [aggLoop_ok_keys env args.max_labels args.min_confidence
      (ups.map Prod.fst) [] [] c r ha a]
    simp [dictKeys]
  · intro k ls hmem
    rw [hcomb] at hmem
    exact aggLoop_ok_entries env args.max_labels args.min_confidence
      (ups.map Prod.fst) [] [] c r (by intro k' ls' hx; cases hx) ha k ls hmem

/-- C8 witness: the reference run's combined document parses back to its
aggregate map. -/
theorem main_combined_roundtrip_witness :
    decodeCombined (encodeCombined okOut.combined) = some okOut.combined :=
  (main_combined_roundtrip batchArgs okEnv okOut
    [("uploads/a.jpg", "etag"), ("uploads/b.png", "etag")] rfl rfl).1

end DetectLabels
